import Mathlib

/-!
Verification of the incremental synchronization engine of the `cear`
repository (`src/main.py`) against its natural-language specification.

Timestamps are modelled as lists of characters (`List Char`), mirroring
Python's treatment of timestamps as plain strings.  Python's string
operations used by the source (`str.replace`, `str.split`, `str.endswith`,
lexicographic `<` / `<=`) are embedded as executable functions below.
-/

namespace Cear

/-- Python `ts.replace("TT", "T")`: replace every non-overlapping
occurrence of `"TT"` by `"T"`, scanning left to right. -/
def replaceTT : List Char → List Char
  | [] => []
  | [c] => [c]
  | c1 :: c2 :: rest =>
    if c1 = 'T' ∧ c2 = 'T' then 'T' :: replaceTT rest
    else c1 :: replaceTT (c2 :: rest)

/-- Whether the list contains two adjacent `'T'` characters
(i.e. whether Python's `replace("TT", "T")` would change it). -/
def hasTT : List Char → Bool
  | [] => false
  | [_] => false
  | c1 :: c2 :: rest => (c1 == 'T' && c2 == 'T') || hasTT (c2 :: rest)

/-- Python `ts.split(".")[0]` (and the identity when no `'.'` occurs):
everything strictly before the first `'.'`. -/
def dropFrac : List Char → List Char
  | [] => []
  | c :: rest => if c = '.' then [] else c :: dropFrac rest

/-- Python `ts.endswith("Z")`. -/
def endsWithZ : List Char → Bool
  | [] => false
  | [c] => c == 'Z'
  | _ :: c :: rest => endsWithZ (c :: rest)

/-- `clean_iso_datetime` from `src/main.py` lines 45-52: collapse a doubled
`'T'` separator, truncate at the first `'.'`, and append `'Z'` when the
result does not already end with `'Z'`. -/
def clean_iso_datetime (ts : List Char) : List Char :=
  let t1 := replaceTT ts
  let t2 := dropFrac t1
  if endsWithZ t2 then t2 else t2 ++ ['Z']

/-- Python's lexicographic `<` on strings (by code point). -/
def pyStrLt : List Char → List Char → Bool
  | [], [] => false
  | [], _ :: _ => true
  | _ :: _, [] => false
  | a :: as, b :: bs =>
    if a < b then true else if b < a then false else pyStrLt as bs

/-- Python's `<=` on strings: `a <= b` iff `¬ (b < a)`. -/
def pyStrLe (a b : List Char) : Bool := !(pyStrLt b a)

/-- Python truthiness of an optional string (`None` and `""` are falsy). -/
def optTruthy : Option (List Char) → Bool
  | some t => !t.isEmpty
  | none => false

/-!
Model of `get_datastream_check` (`src/main.py` lines 68-180).  The remote
API and the local store are abstracted into an environment of the four
sub-query results the function consults; the function body itself is
translated directly.
-/

/-- Environment of `get_datastream_check`: the results of its DB query and
of the three remote requests it may issue.  `newest_db_time = none` models
`MAX(phenomenon_time_start)` returning NULL; `newest_api_time = .error`
models the step-1 exception path; `total_api_count = .ok (-1)` models a
response whose `@iot.count` field is missing (Python default `-1`). -/
structure CheckEnv where
  newest_db_time : Option (List Char)
  newest_api_time : Except (List Char) (List Char)
  total_api_count : Except Unit Int
  fallback_latest : Except Unit (List Char)

/-- Result of `get_datastream_check` restricted to the fields the claims
are about, plus whether the unfiltered top-1 fallback request of the
`else` branch was issued. -/
structure CheckOutcome where
  up_to_date : Bool
  new_obs_count : Int
  fallback_fetch_issued : Bool
deriving DecidableEq, Repr

/-- `get_datastream_check` steps 1-3 (`src/main.py` lines 106-168):
Case 1 (no DB rows) uses the count-only query; Case 2 (API error) reports
not up to date; otherwise the cleaned newest times are compared, equality
short-circuits to up-to-date, and inequality triggers the unfiltered
top-1 fallback request whose raw time is compared with Python `<=`
against the cleaned DB time. -/
def get_datastream_check (env : CheckEnv) : CheckOutcome :=
  match env.newest_db_time with
  | none =>
    match env.total_api_count with
    | Except.ok c =>
      { up_to_date := c == 0, new_obs_count := c, fallback_fetch_issued := false }
    | Except.error _ =>
      { up_to_date := false, new_obs_count := -1, fallback_fetch_issued := false }
  | some db_time =>
    match env.newest_api_time with
    | Except.error _ =>
      { up_to_date := false, new_obs_count := -1, fallback_fetch_issued := false }
    | Except.ok api_time =>
      let clean_db_time := clean_iso_datetime db_time
      let clean_api_time := clean_iso_datetime api_time
      if clean_db_time = clean_api_time then
        { up_to_date := true, new_obs_count := 0, fallback_fetch_issued := false }
      else
        match env.fallback_latest with
        | Except.ok api_latest_obs =>
          let u := pyStrLe api_latest_obs clean_db_time
          { up_to_date := u, new_obs_count := if u then 0 else 1,
            fallback_fetch_issued := true }
        | Except.error _ =>
          { up_to_date := false, new_obs_count := -1, fallback_fetch_issued := true }

/-- `update_datastreams` line 1101: the fetch limit passed to
`fetch_new_observations` is `new_obs_count` when positive, else `1000`. -/
def update_datastreams_limit (new_obs_count : Int) : Int :=
  if new_obs_count > 0 then new_obs_count else 1000

/-!
Model of the fetch-strategy selection in `fetch_new_observations`
(`src/main.py` lines 448-553) and of `fetch_all_observations`
(lines 555-611).
-/

/-- `fetch_new_observations` line 478: fast (filtered) mode is used iff a
limit is supplied and `limit <= 10 * page_size`. -/
def fastMode (limit : Option Nat) (page_size : Nat) : Bool :=
  match limit with
  | some l => decide (l ≤ 10 * page_size)
  | none => false

/-- Which paging strategy `fetch_new_observations` starts with. -/
inductive InitialFetchPath where
  | fastFiltered
  | fullFallbackPath
deriving DecidableEq, Repr

/-- Lines 481 and 534-540: fast mode runs the filtered paging loop;
otherwise the function goes directly to `fetch_all_observations`. -/
def initialFetchPath (limit : Option Nat) (page_size : Nat) : InitialFetchPath :=
  if fastMode limit page_size then InitialFetchPath.fastFiltered
  else InitialFetchPath.fullFallbackPath

/-- The `$filter` expression built in lines 492-497; rendered in the source
as the string `phenomenonTime ge datetime@t@` / `phenomenonTime gt
datetime@t@` (with the timestamp between single quotes). -/
inductive TimeFilter where
  | ge (t : List Char)
  | gt (t : List Char)
deriving DecidableEq, Repr

/-- Python `t[:-1] if t.endswith("Z") else t` (lines 493 and 496). -/
def stripZ (t : List Char) : List Char :=
  if endsWithZ t then t.dropLast else t

/-- The query parameters of one fast-mode page request (lines 486-497). -/
structure FastPageParams where
  top : Nat
  skip : Nat
  orderby : List Char
  filter : Option TimeFilter
deriving DecidableEq, Repr

/-- Lines 486-497: fast-mode page parameters.  The order is always
`phenomenonTime desc`; an explicit (truthy) `start_time` yields a
`ge` filter, else a truthy watermark `latest_time` yields a `gt`
filter, else no filter. -/
def buildFastPageParams (page_size skip : Nat)
    (start_time latest_time : Option (List Char)) : FastPageParams :=
  { top := page_size
    skip := skip
    orderby := "phenomenonTime desc".data
    filter :=
      if optTruthy start_time then
        some (TimeFilter.ge (stripZ (start_time.getD [])))
      else if optTruthy latest_time then
        some (TimeFilter.gt (stripZ (latest_time.getD [])))
      else none }

/-- Lines 462-465: the watermark read from the DB is truncated at the
first `'.'` with `"Z"` re-appended, when it is truthy and contains a dot. -/
def fetch_new_latest_time (db_max : Option (List Char)) : Option (List Char) :=
  match db_max with
  | some t => some (if t ≠ [] ∧ t.contains '.' = true then dropFrac t ++ ['Z'] else t)
  | none => none

/-- Outcome of the filtered probe (first fast-mode page request). -/
inductive ProbeOutcome where
  | stayFiltered
  | switchToFallback
  | raised (status : Nat)
deriving DecidableEq, Repr

/-- Decision made after the first filtered page request: lines 507-510
switch to the fallback when the first page is shorter than the requested
page size; the handler at lines 542-551 switches to the fallback when
`raise_for_status` raised with HTTP status 400 or 500, and re-raises any
other status.  `first_page = .error s` is an HTTP error with status `s`;
`.ok n` is a page of `n` records. -/
def filteredProbeOutcome (first_page : Except Nat Nat) (page_size : Nat) :
    ProbeOutcome :=
  match first_page with
  | Except.error status =>
    if status = 400 ∨ status = 500 then ProbeOutcome.switchToFallback
    else ProbeOutcome.raised status
  | Except.ok len =>
    if len < page_size then ProbeOutcome.switchToFallback
    else ProbeOutcome.stayFiltered

/-!
Model of the HTTP retry configuration (`src/main.py` lines 17-30) and of
which call sites go through the retrying `session` versus plain
`requests.get`.
-/

/-- The `urllib3 Retry` configuration built at lines 20-26. -/
structure RetryConfig where
  total : Nat
  backoff_factor : Nat
  status_forcelist : List Nat
  raise_on_status : Bool
deriving DecidableEq, Repr

/-- `retries = Retry(total=5, backoff_factor=1,
status_forcelist=[500, 502, 503, 504, 429], ...)`. -/
def session_retries : RetryConfig :=
  { total := 5
    backoff_factor := 1
    status_forcelist := [500, 502, 503, 504, 429]
    raise_on_status := false }

/-- Whether a response status is retried by a `RetryConfig`: only the
statuses on the forcelist are. -/
def retriesStatus (cfg : RetryConfig) (status : Nat) : Bool :=
  cfg.status_forcelist.contains status

/-- The distinct places the engine issues a remote HTTP GET. -/
inductive FetchSite where
  | get_api_data
  | check_count_query
  | check_latest_query
  | fast_mode_page
  | fallback_page
deriving DecidableEq, Repr

/-- Which call sites use the retrying `session` (line 186) and which use
plain `requests.get` with no retry (lines 114, 154, 501, 577). -/
def usesRetrySession : FetchSite → Bool
  | FetchSite.get_api_data => true
  | _ => false

/-!
Model of `fetch_all_observations` (`src/main.py` lines 555-611).  The
remote server is abstracted as the finite list of page results the
successive requests would return: `.error ()` is a request whose
`try` block raised, `.ok page` a decoded page.
-/

/-- A raw observation as decoded from the API `value` array, with the
fields the engine reads. -/
structure RawObservation where
  iot_id : Int
  phenomenonTime : List Char
  resultTime : Option (List Char)
  result : List Char
  parameters : List Char
deriving DecidableEq, Repr

/-- One page request's result. -/
abbrev PageResult := Except Unit (List RawObservation)

/-- Python truthiness of the optional `limit` (`None` and `0` are falsy). -/
def limitTruthy : Option Nat → Bool
  | some l => !(l == 0)
  | none => false

/-- The inner `for obs in page` loop of `fetch_all_observations`
(lines 591-605): stop early (returning the accumulated list unchanged)
at the first record strictly older than a truthy `after_time`; otherwise
append the record and stop once a truthy `limit` is reached.  Returns
(accumulated list, fetched count, whether the loop returned early). -/
def obsPageScan (after_time : Option (List Char)) (limit : Option Nat)
    (acc : List RawObservation) (fetched : Nat) :
    List RawObservation → List RawObservation × Nat × Bool
  | [] => (acc, fetched, false)
  | obs :: rest =>
    if optTruthy after_time && pyStrLt obs.phenomenonTime (after_time.getD []) then
      (acc, fetched, true)
    else
      let acc2 := acc ++ [obs]
      let fetched2 := fetched + 1
      if limitTruthy limit && decide (limit.getD 0 ≤ fetched2) then
        (acc2, fetched2, true)
      else obsPageScan after_time limit acc2 fetched2 rest

/-- The outer `while True` paging loop (lines 567-611): a request error
breaks out of the loop (line 586) returning the partial result, an empty
page breaks (line 589), an early return from the inner scan ends the
fetch, and otherwise paging continues. -/
def fetchAllLoop (after_time : Option (List Char)) (limit : Option Nat)
    (acc : List RawObservation) (fetched : Nat) :
    List PageResult → List RawObservation
  | [] => acc
  | Except.error _ :: _ => acc
  | Except.ok page :: rest =>
    if page.isEmpty then acc
    else
      match obsPageScan after_time limit acc fetched page with
      | (acc2, _, true) => acc2
      | (acc2, fetched2, false) => fetchAllLoop after_time limit acc2 fetched2 rest

/-- `fetch_all_observations`, starting from an empty accumulator. -/
def fetch_all_observations (after_time : Option (List Char)) (limit : Option Nat)
    (pages : List PageResult) : List RawObservation :=
  fetchAllLoop after_time limit [] 0 pages

/-- The per-datastream processing loop of `populate_single_thing`
(lines 787-894): each selected datastream is processed in order by `step`;
the first exception jumps to the single `except` handler at line 892,
which rolls back and ends the loop, so no later datastream is processed.
Returns the ids fully processed and the caught error, if any. -/
def populateSelected (step : Nat → Except (List Char) Unit) :
    List Nat → List Nat × Option (List Char)
  | [] => ([], none)
  | d :: rest =>
    match step d with
    | Except.ok _ =>
      let (ps, e) := populateSelected step rest
      (d :: ps, e)
    | Except.error m => ([], some m)

/-!
Model of the upsert writer `insert_observations` (`src/main.py`
lines 228-282) together with `parse_interval` (lines 220-226) and the
lazy FeatureOfInterest fetch (`fetch_feature_of_interest`, lines 441-445).
The `observations` and `features_of_interest` tables are lists of rows;
`ON CONFLICT (...) DO NOTHING` is insert-if-no-row-with-that-key.
-/

/-- A JSON time field as the API may deliver it: a plain string, an
interval object with optional `start`/`end`, or absent. -/
inductive TimeField where
  | timeStr (t : List Char)
  | timeInterval (s e : Option (List Char))
  | absent
deriving DecidableEq, Repr

/-- `parse_interval` (lines 220-226). -/
def parse_interval : TimeField → Option (List Char) × Option (List Char)
  | TimeField.timeStr t => (some t, none)
  | TimeField.timeInterval s e => (s, e)
  | TimeField.absent => (none, none)

/-- A row of the `observations` table (schema at lines 373-387). -/
structure ObsRow where
  observation_id : Int
  datastream_id : Int
  phenomenon_time_start : Option (List Char)
  phenomenon_time_end : Option (List Char)
  result_time : Option (List Char)
  result : List Char
  result_quality : List Char
  valid_time_start : Option (List Char)
  valid_time_end : Option (List Char)
  parameters : List Char
  feature_of_interest_id : Int
deriving DecidableEq, Repr

/-- A row of the `features_of_interest` table, keyed by `@iot.id`. -/
structure FoiRecord where
  iot_id : Int
  name : List Char
deriving DecidableEq, Repr

/-- `INSERT INTO observations ... ON CONFLICT (observation_id) DO NOTHING`
(lines 255-259): the table is unchanged when a row with the same
`observation_id` exists, else the row is appended. -/
def insertObservationRow (table : List ObsRow) (row : ObsRow) : List ObsRow :=
  if table.any (fun r => r.observation_id == row.observation_id) then table
  else table ++ [row]

/-- `INSERT INTO features_of_interest ... ON CONFLICT
(feature_of_interest_id) DO NOTHING` (lines 242-245). -/
def insertFoiRecord (table : List FoiRecord) (foi : FoiRecord) : List FoiRecord :=
  if table.any (fun r => r.iot_id == foi.iot_id) then table
  else table ++ [foi]

/-- The row built for one observation (lines 250-269): phenomenon times
parsed by `parse_interval` and cleaned by `clean_iso_datetime`; the
FeatureOfInterest reference is the fetched record's `@iot.id`. -/
def obsRowOfApi (datastream_id : Int) (obs : RawObservation) (foi : FoiRecord) :
    ObsRow :=
  let pt := parse_interval (TimeField.timeStr obs.phenomenonTime)
  { observation_id := obs.iot_id
    datastream_id := datastream_id
    phenomenon_time_start := pt.1.map clean_iso_datetime
    phenomenon_time_end := pt.2.map clean_iso_datetime
    result_time := obs.resultTime
    result := obs.result
    result_quality := "[]".data
    valid_time_start := none
    valid_time_end := none
    parameters := obs.parameters
    feature_of_interest_id := foi.iot_id }

/-- Running state of one `insert_observations` call: how many times
`fetch_feature_of_interest` has been called over HTTP, and the two
tables. -/
structure InsertRunState where
  foi_fetch_count : Nat
  features_of_interest : List FoiRecord
  observations : List ObsRow
deriving DecidableEq, Repr

/-- One iteration of the `for obs in observations` loop (lines 237-269):
`fetch_feature_of_interest(obs_id)` is called unconditionally (modelled by
the environment `foi_of` and the fetch counter), the FeatureOfInterest row
is inserted (conflict-ignored) first, then the observation row. -/
def insert_observations_step (foi_of : Int → FoiRecord) (datastream_id : Int)
    (st : InsertRunState) (obs : RawObservation) : InsertRunState :=
  let foi := foi_of obs.iot_id
  { foi_fetch_count := st.foi_fetch_count + 1
    features_of_interest := insertFoiRecord st.features_of_interest foi
    observations :=
      insertObservationRow st.observations (obsRowOfApi datastream_id obs foi) }

/-- `insert_observations`: the whole loop over the fetched observations. -/
def insert_observations (foi_of : Int → FoiRecord) (datastream_id : Int)
    (observations : List RawObservation) (st : InsertRunState) : InsertRunState :=
  observations.foldl (insert_observations_step foi_of datastream_id) st

/-!
Lemmas about the timestamp-normalization primitives.
-/

/-- A well-formed whole-second timestamp: a core (e.g.
`YYYY-MM-DDTHH:MM:SS`) free of `'.'`, `'Z'` and doubled `'T'`, optionally
followed by a fractional part or by a single trailing `'Z'`. -/
def WellFormedTs (core s : List Char) : Prop :=
  hasTT core = false ∧ '.' ∉ core ∧ 'Z' ∉ core ∧
    (s = core ∨ s = core ++ ['Z'] ∨ ∃ frac, s = core ++ '.' :: frac)

theorem replaceTT_cons_ne (c : Char) (f : List Char) (hc : c ≠ 'T') :
    replaceTT (c :: f) = c :: replaceTT f := by
  cases f with
  | nil => rfl
  | cons c3 f3 =>
    rw [replaceTT, if_neg]
    intro h
    exact hc h.1

theorem replaceTT_fix (a : List Char) (h : hasTT a = false) : replaceTT a = a := by
  induction a using replaceTT.induct with
  | case1 => rfl
  | case2 c => rfl
  | case3 c1 c2 rest hT ih =>
    rw [hasTT] at h
    simp [hT.1, hT.2] at h
  | case4 c1 c2 rest hT ih =>
    rw [hasTT] at h
    rw [Bool.or_eq_false_iff] at h
    rw [replaceTT, if_neg hT, ih h.2]

theorem replaceTT_append_cons (a : List Char) (c : Char) (f : List Char)
    (h : hasTT a = false) (hc : c ≠ 'T') :
    replaceTT (a ++ c :: f) = a ++ c :: replaceTT f := by
  induction a using replaceTT.induct with
  | case1 => exact replaceTT_cons_ne c f hc
  | case2 c1 =>
    have h1 : replaceTT (c1 :: c :: f) = c1 :: replaceTT (c :: f) := by
      rw [replaceTT, if_neg]
      intro hcc
      exact hc hcc.2
    simpa [replaceTT_cons_ne c f hc] using h1
  | case3 c1 c2 rest hT ih =>
    rw [hasTT] at h
    simp [hT.1, hT.2] at h
  | case4 c1 c2 rest hT ih =>
    rw [hasTT] at h
    rw [Bool.or_eq_false_iff] at h
    have := ih h.2
    simpa [replaceTT, if_neg hT] using this

theorem dropFrac_of_not_mem (a : List Char) (h : '.' ∉ a) : dropFrac a = a := by
  induction a with
  | nil => rfl
  | cons c rest ih =>
    rw [List.mem_cons, not_or] at h
    rw [dropFrac, if_neg (fun hcdot => h.1 hcdot.symm), ih h.2]

theorem dropFrac_append_dot (a : List Char) (f : List Char) (h : '.' ∉ a) :
    dropFrac (a ++ '.' :: f) = a := by
  induction a with
  | nil => simp [dropFrac]
  | cons c rest ih =>
    rw [List.mem_cons, not_or] at h
    rw [List.cons_append, dropFrac, if_neg (fun hcdot => h.1 hcdot.symm), ih h.2]

theorem endsWithZ_concat (a : List Char) : endsWithZ (a ++ ['Z']) = true := by
  induction a with
  | nil => rfl
  | cons c rest ih =>
    cases rest with
    | nil => rfl
    | cons c2 r2 => simpa [endsWithZ] using ih

theorem endsWithZ_false_of_not_mem (a : List Char) (h : 'Z' ∉ a) :
    endsWithZ a = false := by
  induction a with
  | nil => rfl
  | cons c rest ih =>
    rw [List.mem_cons, not_or] at h
    cases rest with
    | nil =>
      rw [endsWithZ]
      exact beq_false_of_ne (fun hz => h.1 hz.symm)
    | cons c2 r2 => simpa [endsWithZ] using ih h.2

theorem clean_of_wellformed (core s : List Char) (h : WellFormedTs core s) :
    clean_iso_datetime s = core ++ ['Z'] := by
  obtain ⟨hTT, hdot, hz, hs⟩ := h
  rcases hs with rfl | rfl | ⟨frac, rfl⟩
  · rw [clean_iso_datetime]
    rw [replaceTT_fix _ hTT, dropFrac_of_not_mem _ hdot,
      endsWithZ_false_of_not_mem _ hz]
    simp
  · have hrep := replaceTT_append_cons _ 'Z' [] hTT (by decide)
    simp only [replaceTT] at hrep
    have hdot2 : '.' ∉ core ++ ['Z'] := by
      simp [List.mem_append, hdot]
    rw [clean_iso_datetime, hrep, dropFrac_of_not_mem _ hdot2, endsWithZ_concat]
    simp
  · rw [clean_iso_datetime, replaceTT_append_cons _ '.' frac hTT (by decide),
      dropFrac_append_dot _ _ hdot, endsWithZ_false_of_not_mem _ hz]
    simp

/-- A well-formed timestamp whose date-time separator was accidentally
doubled: the collapsed core is `a` + `'T'` + `b` (exactly one separator,
with `a` and `b` free of `'T'`), free of `'.'` and `'Z'`, but the input
carries `TT` in the separator's place, optionally followed by a
fractional part or a single trailing `'Z'`. -/
def WellFormedTTs (a b s : List Char) : Prop :=
  'T' ∉ a ∧ 'T' ∉ b ∧ '.' ∉ a ++ 'T' :: b ∧ 'Z' ∉ a ++ 'T' :: b ∧
    (s = a ++ 'T' :: 'T' :: b ∨ s = a ++ 'T' :: 'T' :: (b ++ ['Z']) ∨
      ∃ frac, s = a ++ 'T' :: 'T' :: (b ++ '.' :: frac))

theorem hasTT_eq_false_of_not_mem (l : List Char) (h : 'T' ∉ l) :
    hasTT l = false := by
  induction l with
  | nil => rfl
  | cons c rest ih =>
    rw [List.mem_cons, not_or] at h
    cases rest with
    | nil => rfl
    | cons c2 r2 =>
      have hc : (c == 'T') = false :=
        beq_false_of_ne (fun hct => h.1 hct.symm)
      rw [hasTT, ih h.2, hc]
      rfl

theorem replaceTT_collapse (a rest : List Char) (ha : 'T' ∉ a) :
    replaceTT (a ++ 'T' :: 'T' :: rest) = a ++ 'T' :: replaceTT rest := by
  induction a with
  | nil =>
    rw [List.nil_append, List.nil_append, replaceTT, if_pos ⟨rfl, rfl⟩]
  | cons c a' ih =>
    rw [List.mem_cons, not_or] at ha
    have hc : c ≠ 'T' := fun hct => ha.1 hct.symm
    cases a' with
    | nil =>
      simp only [List.cons_append, List.nil_append]
      rw [replaceTT, if_neg (fun hp => hc hp.1), replaceTT, if_pos ⟨rfl, rfl⟩]
    | cons c2 a'' =>
      have h2 := ih ha.2
      simp only [List.cons_append] at h2 ⊢
      rw [replaceTT, if_neg (fun hp => hc hp.1), h2]

theorem clean_of_wellformed_double (a b s : List Char) (h : WellFormedTTs a b s) :
    clean_iso_datetime s = (a ++ 'T' :: b) ++ ['Z'] := by
  obtain ⟨ha, hb, hdot, hz, hs⟩ := h
  have hbTT : hasTT b = false := hasTT_eq_false_of_not_mem b hb
  rcases hs with rfl | rfl | ⟨frac, rfl⟩
  · rw [clean_iso_datetime, replaceTT_collapse a b ha, replaceTT_fix b hbTT,
      dropFrac_of_not_mem _ hdot, endsWithZ_false_of_not_mem _ hz]
    simp
  · have hTZ : 'T' ∉ b ++ ['Z'] := by
      intro hmem
      rcases List.mem_append.mp hmem with h1 | h1
      · exact hb h1
      · rw [List.mem_singleton] at h1
        exact absurd h1 (by decide)
    have hrep : replaceTT (b ++ ['Z']) = b ++ ['Z'] :=
      replaceTT_fix _ (hasTT_eq_false_of_not_mem _ hTZ)
    have hdot2 : '.' ∉ a ++ 'T' :: (b ++ ['Z']) := by
      intro hmem
      rcases List.mem_append.mp hmem with h1 | h1
      · exact hdot (List.mem_append.mpr (Or.inl h1))
      · rw [List.mem_cons] at h1
        rcases h1 with h1 | h1
        · exact absurd h1 (by decide)
        · rcases List.mem_append.mp h1 with h2 | h2
          · exact hdot (List.mem_append.mpr (Or.inr (List.mem_cons_of_mem _ h2)))
          · rw [List.mem_singleton] at h2
            exact absurd h2 (by decide)
    have hshape : a ++ 'T' :: (b ++ ['Z']) = (a ++ 'T' :: b) ++ ['Z'] := by simp
    rw [clean_iso_datetime, replaceTT_collapse a _ ha, hrep,
      dropFrac_of_not_mem _ hdot2, hshape, endsWithZ_concat]
    simp
  · have hshape : a ++ 'T' :: (b ++ '.' :: replaceTT frac)
        = (a ++ 'T' :: b) ++ '.' :: replaceTT frac := by simp
    rw [clean_iso_datetime, replaceTT_collapse a _ ha,
      replaceTT_append_cons b '.' frac hbTT (by decide), hshape,
      dropFrac_append_dot _ _ hdot, endsWithZ_false_of_not_mem _ hz]
    simp

/-!
Claim theorems.
-/

/-- Claim C3 (amended): `clean_iso_datetime` always produces an output
ending in the zone marker `'Z'`; on a well-formed timestamp (a core free
of `'.'`, `'Z'` and doubled `'T'`, optionally followed by a fractional
part or a single trailing `'Z'`) the output is the whole-second core with
`'Z'` appended, the fractional part being truncated; an input whose
date-time separator is accidentally doubled (`TT`, as in the source's
own example `2025-06-09TT18:22:37.983312`) has the doubled separator
collapsed to one, normalizing to the collapsed core with `'Z'` appended
— hence identically to the single-`'T'` input; and two well-formed
timestamps normalize to the same value iff their whole-second cores are
equal.  (The original claim's "duplicated zone markers are collapsed to
one" is refuted by the counterexample: only the doubled `'T'` separator
is collapsed, a doubled `'Z'` is kept.) -/
theorem clean_iso_datetime_canonical :
    (∀ ts, endsWithZ (clean_iso_datetime ts) = true) ∧
    (∀ core s, WellFormedTs core s → clean_iso_datetime s = core ++ ['Z']) ∧
    (∀ a b s, WellFormedTTs a b s →
        clean_iso_datetime s = (a ++ 'T' :: b) ++ ['Z']) ∧
    (∀ c1 s1 c2 s2, WellFormedTs c1 s1 → WellFormedTs c2 s2 →
        (clean_iso_datetime s1 = clean_iso_datetime s2 ↔ c1 = c2)) := by
  refine ⟨?_, clean_of_wellformed, clean_of_wellformed_double, ?_⟩
  · intro ts
    simp only [clean_iso_datetime]
    split
    · assumption
    · exact endsWithZ_concat _
  · intro c1 s1 c2 s2 h1 h2
    rw [clean_of_wellformed _ _ h1, clean_of_wellformed _ _ h2]
    constructor
    · exact fun h => List.append_cancel_right h
    · intro h
      rw [h]

/-- Witness for C3: the fractional part of `2024-01-01T00:00:00.500000`
is truncated and `'Z'` appended, which coincides with the normalization
of `2024-01-01T00:00:00Z`; and the doubled separator of the source
comment's example `2025-06-09TT18:22:37.983312` is collapsed, so it
normalizes identically to the single-`'T'` input. -/
theorem clean_iso_datetime_canonical_witness :
    clean_iso_datetime "2024-01-01T00:00:00.500000".data
        = "2024-01-01T00:00:00".data ++ ['Z'] ∧
    clean_iso_datetime "2024-01-01T00:00:00.500000".data
        = clean_iso_datetime "2024-01-01T00:00:00Z".data ∧
    clean_iso_datetime "2025-06-09TT18:22:37.983312".data
        = "2025-06-09T18:22:37".data ++ ['Z'] ∧
    clean_iso_datetime "2025-06-09TT18:22:37.983312".data
        = clean_iso_datetime "2025-06-09T18:22:37.983312".data := by
  have wf1 : WellFormedTs "2024-01-01T00:00:00".data
      "2024-01-01T00:00:00.500000".data :=
    ⟨by decide, by decide, by decide, Or.inr (Or.inr ⟨"500000".data, by decide⟩)⟩
  have wf2 : WellFormedTs "2024-01-01T00:00:00".data
      "2024-01-01T00:00:00Z".data :=
    ⟨by decide, by decide, by decide, Or.inr (Or.inl (by decide))⟩
  have wfTT : WellFormedTTs "2025-06-09".data "18:22:37".data
      "2025-06-09TT18:22:37.983312".data :=
    ⟨by decide, by decide, by decide, by decide,
      Or.inr (Or.inr ⟨"983312".data, by decide⟩)⟩
  have wf3 : WellFormedTs "2025-06-09T18:22:37".data
      "2025-06-09T18:22:37.983312".data :=
    ⟨by decide, by decide, by decide, Or.inr (Or.inr ⟨"983312".data, by decide⟩)⟩
  have hTT := clean_iso_datetime_canonical.2.2.1 _ _ _ wfTT
  have hsingle := clean_iso_datetime_canonical.2.1 _ _ wf3
  have hcore : ("2025-06-09".data ++ 'T' :: "18:22:37".data)
      = "2025-06-09T18:22:37".data := by decide
  refine ⟨clean_iso_datetime_canonical.2.1 _ _ wf1,
    (clean_iso_datetime_canonical.2.2.2 _ _ _ _ wf1 wf2).mpr rfl,
    ?_, ?_⟩
  · rw [hTT, hcore]
  · rw [hTT, hcore, hsingle]

/-- Counterexample to C3 as stated: a duplicated trailing zone marker is
NOT collapsed to one, so `...00ZZ` and `...00Z`, which denote the same
whole second, do not normalize to the same value. -/
theorem clean_iso_datetime_counterexample :
    clean_iso_datetime "2024-01-01T00:00:00ZZ".data
        = "2024-01-01T00:00:00ZZ".data ∧
    clean_iso_datetime "2024-01-01T00:00:00ZZ".data
        ≠ clean_iso_datetime "2024-01-01T00:00:00Z".data := by decide

/-- Claim C1: when both a local and a remote newest phenomenon time are
present and their `clean_iso_datetime` normalizations are equal,
`get_datastream_check` reports `up_to_date = true` and
`new_obs_count = 0` without issuing the unfiltered fallback fetch. -/
theorem get_datastream_check_short_circuit
    (env : CheckEnv) (db_time api_time : List Char)
    (hdb : env.newest_db_time = some db_time)
    (hapi : env.newest_api_time = Except.ok api_time)
    (heq : clean_iso_datetime db_time = clean_iso_datetime api_time) :
    get_datastream_check env =
      { up_to_date := true, new_obs_count := 0, fallback_fetch_issued := false } := by
  simp only [get_datastream_check, hdb, hapi]
  rw [if_pos heq]

/-- Check environment for the C1 witness: local newest
`2024-01-01T00:00:00Z`, remote newest `2024-01-01T00:00:00.500000`. -/
def checkEnvC1 : CheckEnv :=
  { newest_db_time := some "2024-01-01T00:00:00Z".data
    newest_api_time := Except.ok "2024-01-01T00:00:00.500000".data
    total_api_count := Except.error ()
    fallback_latest := Except.error () }

/-- Witness for C1 at the spec's concrete pair of timestamps. -/
theorem get_datastream_check_short_circuit_witness :
    get_datastream_check checkEnvC1 =
      { up_to_date := true, new_obs_count := 0, fallback_fetch_issued := false } :=
  get_datastream_check_short_circuit checkEnvC1 _ _ rfl rfl (by decide)

theorem ite_not_bool (b : Bool) (x y : Int) :
    (if (!b) = true then x else y) = if b = true then y else x := by
  cases b <;> simp

/-- Claim C10: in the timestamp-comparison branch with unequal normalized
times and a successful unfiltered top-1 follow-up fetch, the returned
`new_obs_count` is exactly `1` when the raw remote time string compares
(Python string order) greater than the normalized local time and `0`
otherwise, and `update_datastreams` uses this value as the fetch limit
whenever it is positive. -/
theorem get_datastream_check_fallback_count
    (env : CheckEnv) (db_time api_time raw : List Char)
    (hdb : env.newest_db_time = some db_time)
    (hapi : env.newest_api_time = Except.ok api_time)
    (hne : clean_iso_datetime db_time ≠ clean_iso_datetime api_time)
    (hfb : env.fallback_latest = Except.ok raw) :
    (get_datastream_check env).new_obs_count
        = (if pyStrLt (clean_iso_datetime db_time) raw then 1 else 0) ∧
    ((get_datastream_check env).new_obs_count > 0 →
      update_datastreams_limit (get_datastream_check env).new_obs_count
        = (get_datastream_check env).new_obs_count) := by
  have hcheck : get_datastream_check env =
      { up_to_date := pyStrLe raw (clean_iso_datetime db_time)
        new_obs_count := if pyStrLe raw (clean_iso_datetime db_time) then 0 else 1
        fallback_fetch_issued := true } := by
    simp only [get_datastream_check, hdb, hapi, hfb]
    rw [if_neg hne]
  constructor
  · rw [hcheck]
    simp only [pyStrLe]
    exact ite_not_bool (pyStrLt (clean_iso_datetime db_time) raw) 0 1
  · intro hpos
    rw [update_datastreams_limit, if_pos hpos]

/-- Check environment for the C10 witness: the cleaned times differ and
the follow-up fetch returns a raw time greater than the local one. -/
def checkEnvC10 : CheckEnv :=
  { newest_db_time := some "2024-01-01T00:00:00Z".data
    newest_api_time := Except.ok "2024-01-01T00:00:01Z".data
    total_api_count := Except.error ()
    fallback_latest := Except.ok "2024-01-01T00:00:01.200Z".data }

/-- Witness for C10: the count is `1` (not the true number of missing
observations) and it is used unchanged as the fetch limit. -/
theorem get_datastream_check_fallback_count_witness :
    (get_datastream_check checkEnvC10).new_obs_count = 1 ∧
    update_datastreams_limit (get_datastream_check checkEnvC10).new_obs_count
      = (get_datastream_check checkEnvC10).new_obs_count := by
  have h := get_datastream_check_fallback_count checkEnvC10 _ _ _ rfl rfl
    (by decide) rfl
  have hc : (get_datastream_check checkEnvC10).new_obs_count = 1 :=
    h.1.trans (by decide)
  exact ⟨hc, h.2 (by rw [hc]; decide)⟩

/-- Claim C2: writing an observation whose `observation_id` is already in
the `observations` table leaves the table unchanged (first writer wins,
no error), and consequently after inserting any sequence of rows starting
from an empty table every `observation_id` occurs exactly once. -/
theorem insert_observations_idempotent_nodup :
    (∀ (table : List ObsRow) (row r : ObsRow), r ∈ table →
        r.observation_id = row.observation_id →
        insertObservationRow table row = table) ∧
    (∀ rows : List ObsRow,
        ((rows.foldl insertObservationRow []).map
            (fun r => r.observation_id)).Nodup) := by
  have hmem : ∀ (table : List ObsRow) (row r : ObsRow), r ∈ table →
      r.observation_id = row.observation_id →
      insertObservationRow table row = table := by
    intro table row r hr hid
    rw [insertObservationRow, if_pos]
    rw [List.any_eq_true]
    exact ⟨r, hr, by simp [hid]⟩
  have hpres : ∀ (row : ObsRow) (table : List ObsRow),
      (table.map (fun r => r.observation_id)).Nodup →
      ((insertObservationRow table row).map (fun r => r.observation_id)).Nodup := by
    intro row table h
    rw [insertObservationRow]
    split
    · exact h
    · rename_i hany
      rw [List.map_append, List.nodup_append]
      refine ⟨h, List.nodup_singleton _, ?_⟩
      intro a ha hb
      simp only [List.map_cons, List.map_nil, List.mem_singleton] at hb
      rw [List.mem_map] at ha
      obtain ⟨r, hr, hra⟩ := ha
      rw [List.any_eq_true] at hany
      exact hany ⟨r, hr, by simp [hra, hb]⟩
  refine ⟨hmem, ?_⟩
  have hfold : ∀ (rows table : List ObsRow),
      (table.map (fun r => r.observation_id)).Nodup →
      ((rows.foldl insertObservationRow table).map
          (fun r => r.observation_id)).Nodup := by
    intro rows
    induction rows with
    | nil => intro table h; simpa using h
    | cons row rest ih =>
      intro table h
      exact ih _ (hpres row table h)
  intro rows
  exact hfold rows [] (by simp)

/-- Sample observation row for the C2 witness. -/
def rowA : ObsRow :=
  { observation_id := 5
    datastream_id := 1
    phenomenon_time_start := some "2024-01-01T00:00:00Z".data
    phenomenon_time_end := none
    result_time := none
    result := "1.5".data
    result_quality := "[]".data
    valid_time_start := none
    valid_time_end := none
    parameters := "null".data
    feature_of_interest_id := 7 }

/-- Second sample row: same `observation_id` as `rowA`, different data. -/
def rowB : ObsRow :=
  { rowA with result := "2.5".data }

/-- Witness for C2: re-inserting id 5 with different data is a no-op that
leaves the first-written row intact, and a run containing the duplicate
still yields distinct ids. -/
theorem insert_observations_idempotent_nodup_witness :
    insertObservationRow [rowA] rowB = [rowA] ∧
    (([rowA, rowB].foldl insertObservationRow []).map
        (fun r => r.observation_id)).Nodup :=
  ⟨insert_observations_idempotent_nodup.1 [rowA] rowB rowA (by simp) rfl,
   insert_observations_idempotent_nodup.2 [rowA, rowB]⟩

/-- Counterexample to C4 as stated: a filtered query answered with HTTP
404 — a permanent 4xx error — is re-raised rather than triggering the
fallback, while HTTP 500 — a transient 5xx error, not a 4xx — does
trigger the fallback. -/
theorem filtered_probe_counterexample :
    filteredProbeOutcome (Except.error 404) 1000 = ProbeOutcome.raised 404 ∧
    filteredProbeOutcome (Except.error 500) 1000
      = ProbeOutcome.switchToFallback := by decide

/-- Claim C4 (amended): during a fast-mode (filtered) fetch the engine
switches to the full-fallback unfiltered paging strategy exactly when the
filtered request raises with HTTP status 400 or 500, or when the first
returned page contains fewer records than the requested page size; any
other HTTP error is re-raised, and otherwise it stays on the filtered
strategy. -/
theorem filtered_probe_fallback_iff (first_page : Except Nat Nat)
    (page_size : Nat) :
    filteredProbeOutcome first_page page_size = ProbeOutcome.switchToFallback ↔
      (first_page = Except.error 400 ∨ first_page = Except.error 500 ∨
        ∃ n, first_page = Except.ok n ∧ n < page_size) := by
  cases first_page with
  | error status =>
    simp only [filteredProbeOutcome]
    by_cases h : status = 400 ∨ status = 500
    · rw [if_pos h]
      rcases h with rfl | rfl <;> simp
    · rw [if_neg h]
      simp only [not_or] at h
      constructor
      · intro hc
        exact absurd hc (by simp)
      · rintro (h400 | h500 | ⟨n, hn, _⟩)
        · injection h400 with he
          exact absurd he h.1
        · injection h500 with he
          exact absurd he h.2
        · cases hn
  | ok n =>
    simp only [filteredProbeOutcome]
    by_cases h : n < page_size
    · rw [if_pos h]
      simp [h]
    · rw [if_neg h]
      constructor
      · intro hc
        exact absurd hc (by simp)
      · rintro (h400 | h500 | ⟨m, hm, hlt⟩)
        · cases h400
        · cases h500
        · injection hm with hm
          subst hm
          exact absurd hlt h

/-- Counterexample to C6 as stated: with an existing watermark but no
limit (`limit=None`), `fetch_new_observations` does not attempt a
filtered query at all, and the filtered query that fast mode does build
orders descending, not ascending, by phenomenon time. -/
theorem fetch_plan_counterexample :
    initialFetchPath none 1000 = InitialFetchPath.fullFallbackPath ∧
    (buildFastPageParams 1000 0 none
        (some "2024-01-01T00:00:00Z".data)).orderby
      ≠ "phenomenonTime asc".data := by decide

/-- Claim C6 (amended): the filtered query is attempted only in fast mode
(a limit is supplied and `limit ≤ 10 * page_size`); its pages are ordered
DESCENDING by phenomenon time; a truthy explicit start time yields the
filter `phenomenonTime ge start` (trailing `Z` stripped), else a truthy
watermark yields `phenomenonTime gt latest-watermark`, else no filter. -/
theorem fetch_plan_params (limit : Option Nat) (page_size skip : Nat)
    (start_time latest_time : Option (List Char)) :
    (initialFetchPath limit page_size = InitialFetchPath.fastFiltered ↔
      ∃ l, limit = some l ∧ l ≤ 10 * page_size) ∧
    (buildFastPageParams page_size skip start_time latest_time).orderby
        = "phenomenonTime desc".data ∧
    (optTruthy start_time = true →
      (buildFastPageParams page_size skip start_time latest_time).filter
        = some (TimeFilter.ge (stripZ (start_time.getD [])))) ∧
    (optTruthy start_time = false → optTruthy latest_time = true →
      (buildFastPageParams page_size skip start_time latest_time).filter
        = some (TimeFilter.gt (stripZ (latest_time.getD [])))) ∧
    (optTruthy start_time = false → optTruthy latest_time = false →
      (buildFastPageParams page_size skip start_time latest_time).filter
        = none) := by
  refine ⟨?_, rfl, ?_, ?_, ?_⟩
  · rw [initialFetchPath]
    cases limit with
    | none => simp [fastMode]
    | some l =>
      simp only [fastMode]
      by_cases h : l ≤ 10 * page_size <;> simp [h]
  · intro hst
    simp [buildFastPageParams, hst]
  · intro hst hlt
    simp [buildFastPageParams, hst, hlt]
  · intro hst hlt
    simp [buildFastPageParams, hst, hlt]

/-- Witness for C6: with limit 50 the fast filtered path is taken, and a
watermark `2024-01-01T00:00:00Z` yields the strict greater-than filter
with the trailing `Z` stripped. -/
theorem fetch_plan_params_witness :
    initialFetchPath (some 50) 1000 = InitialFetchPath.fastFiltered ∧
    (buildFastPageParams 1000 0 none (some "2024-01-01T00:00:00Z".data)).filter
      = some (TimeFilter.gt "2024-01-01T00:00:00".data) := by
  have h := fetch_plan_params (some 50) 1000 0 none
    (some "2024-01-01T00:00:00Z".data)
  refine ⟨h.1.mpr ⟨50, rfl, by decide⟩, ?_⟩
  have h4 := h.2.2.2.1 (by decide) (by decide)
  rw [h4]
  decide

/-- Counterexample to C7 as stated: the fallback paging requests go
through plain `requests.get`, not the retrying session, and HTTP 501 is a
5xx status that even the session's forcelist does not retry. -/
theorem retry_policy_counterexample :
    usesRetrySession FetchSite.fallback_page = false ∧
    retriesStatus session_retries 501 = false := by decide

/-- Claim C7 (amended): only requests issued through `get_api_data` use
the retrying session; that session is configured with 5 retries and
backoff and retries exactly the statuses 500, 502, 503, 504 and 429, so
permanent 4xx errors other than 429 are never retried. -/
theorem retry_policy_model :
    (∀ site, usesRetrySession site = true ↔ site = FetchSite.get_api_data) ∧
    session_retries.total = 5 ∧
    (∀ status, retriesStatus session_retries status = true ↔
        (status = 500 ∨ status = 502 ∨ status = 503 ∨ status = 504 ∨
          status = 429)) ∧
    (∀ status, 400 ≤ status → status < 500 → status ≠ 429 →
        retriesStatus session_retries status = false) := by
  have hmem : ∀ status, retriesStatus session_retries status = true ↔
      (status = 500 ∨ status = 502 ∨ status = 503 ∨ status = 504 ∨
        status = 429) := by
    intro status
    simp [retriesStatus, session_retries]
  refine ⟨?_, rfl, hmem, ?_⟩
  · intro site
    cases site <;> simp [usesRetrySession]
  · intro status h1 h2 h3
    by_contra hc
    rw [Bool.not_eq_false] at hc
    rcases (hmem status).mp hc with rfl | rfl | rfl | rfl | rfl
    · omega
    · omega
    · omega
    · omega
    · exact h3 rfl

/-- Witness for C7: HTTP 404 is in the permanent range and not retried. -/
theorem retry_policy_model_witness :
    retriesStatus session_retries 404 = false :=
  retry_policy_model.2.2.2 404 (by decide) (by decide) (by decide)

theorem obsPageScan_invariant (a : Option (List Char)) (l : Nat) (hl : 0 < l) :
    ∀ (page acc : List RawObservation) (f : Nat), f = acc.length → f < l →
      ((obsPageScan a (some l) acc f page).1.length
          = (obsPageScan a (some l) acc f page).2.1) ∧
      (obsPageScan a (some l) acc f page).2.1 ≤ l ∧
      ((obsPageScan a (some l) acc f page).2.2 = false →
        (obsPageScan a (some l) acc f page).2.1 < l) := by
  intro page
  induction page with
  | nil =>
    intro acc f hf hfl
    refine ⟨by simp [obsPageScan, hf], by simp [obsPageScan]; omega,
      by simp [obsPageScan]; omega⟩
  | cons obs rest ih =>
    intro acc f hf hfl
    simp only [obsPageScan]
    split
    · exact ⟨by simp [hf], by simp; omega, by simp⟩
    · simp only [Option.getD_some]
      split
      · exact ⟨by simp [hf], by simp; omega, by simp⟩
      · rename_i h2
        have hnl : ¬(l ≤ f + 1) := by
          intro hle
          apply h2
          simp [limitTruthy]
          omega
        exact ih (acc ++ [obs]) (f + 1) (by simp [hf]) (by omega)

theorem fetchAllLoop_length_le (a : Option (List Char)) (l : Nat) (hl : 0 < l) :
    ∀ (pages : List PageResult) (acc : List RawObservation) (f : Nat),
      f = acc.length → f < l →
      (fetchAllLoop a (some l) acc f pages).length ≤ l := by
  intro pages
  induction pages with
  | nil =>
    intro acc f hf hfl
    simp only [fetchAllLoop]
    omega
  | cons pr rest ih =>
    intro acc f hf hfl
    cases pr with
    | error e =>
      simp only [fetchAllLoop]
      omega
    | ok page =>
      rw [fetchAllLoop]
      have h3 := obsPageScan_invariant a l hl page acc f hf hfl
      split
      · omega
      · split
        · rename_i acc2 n heq
          rw [heq] at h3
          simp only at h3
          omega
        · rename_i acc2 fetched2 heq
          rw [heq] at h3
          simp only at h3
          exact ih acc2 fetched2 (by omega) (h3.2.2 trivial)

/-- Claim C5 (amended): the fallback paging fetch is finite and bounded:
an empty page terminates it with the records collected so far; a POSITIVE
record limit bounds the result length by the limit (a supplied limit of
`0` is falsy in Python and imposes no bound — see the counterexample);
whenever the inner page scan returns early (limit reached or a record
older than the bound encountered) the remaining pages are never requested;
and with a truthy lower time bound the scan stops at the first record
strictly older than the bound, collecting nothing from that record on. -/
theorem fetch_all_observations_termination :
    (∀ (a : Option (List Char)) (l : Option Nat) (acc : List RawObservation)
        (f : Nat) (rest : List PageResult),
      fetchAllLoop a l acc f (Except.ok [] :: rest) = acc) ∧
    (∀ (a : Option (List Char)) (l : Nat) (pages : List PageResult), 0 < l →
      (fetch_all_observations a (some l) pages).length ≤ l) ∧
    (∀ (a : Option (List Char)) (l : Option Nat) (acc : List RawObservation)
        (f : Nat) (page : List RawObservation) (rest : List PageResult),
      (obsPageScan a l acc f page).2.2 = true →
      fetchAllLoop a l acc f (Except.ok page :: rest)
        = (obsPageScan a l acc f page).1) ∧
    (∀ (t : List Char) (obs : RawObservation) (restObs : List RawObservation)
        (l : Option Nat) (acc : List RawObservation) (f : Nat),
      t ≠ [] → pyStrLt obs.phenomenonTime t = true →
      obsPageScan (some t) l acc f (obs :: restObs) = (acc, f, true)) := by
  refine ⟨fun a l acc f rest => rfl, ?_, ?_, ?_⟩
  · intro a l pages hl
    exact fetchAllLoop_length_le a l hl pages [] 0 rfl hl
  · intro a l acc f page rest hstop
    rw [fetchAllLoop]
    split
    · rename_i hemp
      rw [List.isEmpty_iff] at hemp
      subst hemp
      simp [obsPageScan] at hstop
    · split
      · rename_i acc2 n heq
        rw [heq]
      · rename_i acc2 f2 heq
        rw [heq] at hstop
        simp at hstop
  · intro t obs restObs l acc f ht hlt
    rw [obsPageScan, if_pos]
    rw [Bool.and_eq_true]
    refine ⟨?_, by simpa using hlt⟩
    simp [optTruthy, ht]

/-- A sample recent observation. -/
def obs1 : RawObservation :=
  { iot_id := 1
    phenomenonTime := "2024-01-02T00:00:00Z".data
    resultTime := none
    result := "1.0".data
    parameters := "null".data }

/-- A sample observation older than the 2024-01-01 lower bound. -/
def obsOld : RawObservation :=
  { iot_id := 2
    phenomenonTime := "2023-12-31T00:00:00Z".data
    resultTime := none
    result := "2.0".data
    parameters := "null".data }

/-- Witness for C5: empty-page termination, a positive limit bounding the
result, stop-early page independence, and immediate termination at a
record older than the bound, all at concrete inputs. -/
theorem fetch_all_observations_termination_witness :
    fetchAllLoop none none [] 0 [Except.ok []] = [] ∧
    (fetch_all_observations none (some 1)
        [Except.ok [obs1, obsOld]]).length ≤ 1 ∧
    fetchAllLoop none (some 1) [] 0
        [Except.ok [obs1, obsOld], Except.ok [obsOld]]
      = (obsPageScan none (some 1) [] 0 [obs1, obsOld]).1 ∧
    obsPageScan (some "2024-01-01T00:00:00Z".data) none [] 0 [obsOld, obs1]
      = ([], 0, true) :=
  ⟨fetch_all_observations_termination.1 none none [] 0 [],
    fetch_all_observations_termination.2.1 none 1 _ (by decide),
    fetch_all_observations_termination.2.2.1 none (some 1) [] 0 _ _ (by decide),
    fetch_all_observations_termination.2.2.2 _ obsOld [obs1] none [] 0
      (by decide) (by decide)⟩

/-- Counterexample to C5 as stated: a supplied record limit of `0` is
falsy in Python (`if limit and fetched >= limit`), so the fetch returns
more records than the limit allows. -/
theorem fetch_all_observations_limit_counterexample :
    fetch_all_observations none (some 0) [Except.ok [obs1]] = [obs1] := by
  decide

/-- Claim C8 (amended): an HTTP failure while fetching a page during
fallback paging is caught, logged, and swallowed: the loop breaks and the
partial list fetched so far is returned as a normal result; and in
`populate_single_thing` an exception while processing one datastream
jumps to the single outer handler, so the remaining selected datastreams
of the run are NOT processed. -/
theorem per_stream_failure_handling :
    (∀ (a : Option (List Char)) (l : Option Nat) (acc : List RawObservation)
        (f : Nat) (rest : List PageResult),
      fetchAllLoop a l acc f (Except.error () :: rest) = acc) ∧
    (∀ (step : Nat → Except (List Char) Unit) (d : Nat) (rest : List Nat)
        (m : List Char),
      step d = Except.error m →
      populateSelected step (d :: rest) = ([], some m)) := by
  refine ⟨fun a l acc f rest => rfl, ?_⟩
  intro step d rest m hstep
  rw [populateSelected, hstep]

/-- Per-datastream step for the C8 scenario: processing datastream 1
raises, any other succeeds. -/
def stepFailFirst : Nat → Except (List Char) Unit :=
  fun d => if d = 1 then Except.error "boom".data else Except.ok ()

/-- Witness for C8: the failure on datastream 1 ends the run with
datastream 2 unprocessed. -/
theorem per_stream_failure_handling_witness :
    populateSelected stepFailFirst [1, 2] = ([], some "boom".data) :=
  per_stream_failure_handling.2 stepFailFirst 1 [2] "boom".data rfl

/-- Counterexample to C8 as stated: a page-fetch failure is NOT surfaced
to the caller — the fetch returns the partial result `[obs1]`
indistinguishable from success — and after datastream 1 fails,
datastream 2 is never processed (the processed-id list is empty). -/
theorem per_stream_failure_counterexample :
    fetch_all_observations none none [Except.ok [obs1], Except.error ()]
        = [obs1] ∧
    (populateSelected stepFailFirst [1, 2]).1 = [] := by decide

theorem insertFoiRecord_subset (t : List FoiRecord) (foi : FoiRecord) :
    t ⊆ insertFoiRecord t foi := by
  rw [insertFoiRecord]
  split
  · exact List.Subset.refl t
  · exact List.subset_append_left t [foi]

theorem insertFoiRecord_target (t : List FoiRecord) (foi : FoiRecord) :
    ∃ fo ∈ insertFoiRecord t foi, fo.iot_id = foi.iot_id := by
  rw [insertFoiRecord]
  split
  · rename_i hany
    rw [List.any_eq_true] at hany
    obtain ⟨r, hr, hrb⟩ := hany
    exact ⟨r, hr, by simpa using hrb⟩
  · exact ⟨foi, by simp, rfl⟩

theorem insertObservationRow_mem (t : List ObsRow) (row r : ObsRow)
    (h : r ∈ insertObservationRow t row) : r ∈ t ∨ r = row := by
  rw [insertObservationRow] at h
  split at h
  · exact Or.inl h
  · rw [List.mem_append] at h
    rcases h with h | h
    · exact Or.inl h
    · exact Or.inr (by simpa using h)

theorem insert_observations_step_inv (foi_of : Int → FoiRecord) (ds : Int)
    (st : InsertRunState) (obs : RawObservation)
    (hinv : ∀ r ∈ st.observations, ∃ fo ∈ st.features_of_interest,
        fo.iot_id = r.feature_of_interest_id) :
    ∀ r ∈ (insert_observations_step foi_of ds st obs).observations,
      ∃ fo ∈ (insert_observations_step foi_of ds st obs).features_of_interest,
        fo.iot_id = r.feature_of_interest_id := by
  intro r hr
  simp only [insert_observations_step] at hr ⊢
  rcases insertObservationRow_mem _ _ _ hr with hold | rfl
  · obtain ⟨fo, hfo, hid⟩ := hinv r hold
    exact ⟨fo, insertFoiRecord_subset _ _ hfo, hid⟩
  · obtain ⟨fo, hfo, hid⟩ :=
      insertFoiRecord_target st.features_of_interest (foi_of obs.iot_id)
    exact ⟨fo, hfo, by rw [hid]; rfl⟩

/-- Claim C9 (amended): `insert_observations` calls
`fetch_feature_of_interest` once PER OBSERVATION (the conflict-ignoring
insert deduplicates stored rows, not HTTP fetches), and the
FeatureOfInterest row referenced by each observation is persisted before
that observation row, so the foreign-key dependency always holds. -/
theorem insert_observations_foi (foi_of : Int → FoiRecord) (ds : Int) :
    (∀ (obs_list : List RawObservation) (st : InsertRunState),
      (insert_observations foi_of ds obs_list st).foi_fetch_count
        = st.foi_fetch_count + obs_list.length) ∧
    (∀ (obs_list : List RawObservation) (st : InsertRunState),
      (∀ r ∈ st.observations, ∃ fo ∈ st.features_of_interest,
          fo.iot_id = r.feature_of_interest_id) →
      ∀ r ∈ (insert_observations foi_of ds obs_list st).observations,
        ∃ fo ∈ (insert_observations foi_of ds obs_list st).features_of_interest,
          fo.iot_id = r.feature_of_interest_id) := by
  constructor
  · intro obs_list
    induction obs_list with
    | nil =>
      intro st
      simp [insert_observations]
    | cons obs rest ih =>
      intro st
      have hstep : insert_observations foi_of ds (obs :: rest) st
          = insert_observations foi_of ds rest
              (insert_observations_step foi_of ds st obs) := rfl
      rw [hstep, ih]
      simp only [insert_observations_step, List.length_cons]
      omega
  · intro obs_list
    induction obs_list with
    | nil =>
      intro st hinv
      exact hinv
    | cons obs rest ih =>
      intro st hinv
      have hstep : insert_observations foi_of ds (obs :: rest) st
          = insert_observations foi_of ds rest
              (insert_observations_step foi_of ds st obs) := rfl
      rw [hstep]
      exact ih _ (insert_observations_step_inv foi_of ds st obs hinv)

/-- The single FeatureOfInterest shared by the sample observations. -/
def foiSample : FoiRecord := { iot_id := 7, name := "water level".data }

/-- Remote environment: every observation resolves to `foiSample`. -/
def foiOfSample : Int → FoiRecord := fun _ => foiSample

/-- First sample API observation. -/
def apiObsA : RawObservation :=
  { iot_id := 11
    phenomenonTime := "2024-01-01T00:00:00.100Z".data
    resultTime := none
    result := "1.0".data
    parameters := "null".data }

/-- Second sample API observation, referencing the same feature. -/
def apiObsB : RawObservation :=
  { iot_id := 12
    phenomenonTime := "2024-01-01T00:00:05.100Z".data
    resultTime := none
    result := "1.1".data
    parameters := "null".data }

/-- Empty initial run state for `insert_observations`. -/
def initRun : InsertRunState :=
  { foi_fetch_count := 0, features_of_interest := [], observations := [] }

/-- Witness for C9: inserting two observations makes two FOI fetches, and
the persisted row of `apiObsA` has its FeatureOfInterest present in the
`features_of_interest` table. -/
theorem insert_observations_foi_witness :
    (insert_observations foiOfSample 3 [apiObsA, apiObsB] initRun).foi_fetch_count
        = 2 ∧
    ∃ fo ∈ (insert_observations foiOfSample 3 [apiObsA, apiObsB]
        initRun).features_of_interest,
      fo.iot_id = (obsRowOfApi 3 apiObsA foiSample).feature_of_interest_id := by
  constructor
  · exact ((insert_observations_foi foiOfSample 3).1 [apiObsA, apiObsB]
      initRun).trans (by decide)
  · exact (insert_observations_foi foiOfSample 3).2 [apiObsA, apiObsB] initRun
      (by intro r hr; simp [initRun] at hr)
      (obsRowOfApi 3 apiObsA foiSample) (by decide)

/-- Counterexample to C9 as stated: two observations sharing one
FeatureOfInterest id cause TWO remote FeatureOfInterest fetches even
though only one distinct feature id (one stored row) is involved; the
fetch is not cached per id. -/
theorem insert_observations_foi_counterexample :
    (insert_observations foiOfSample 3 [apiObsA, apiObsB] initRun).foi_fetch_count
        = 2 ∧
    ((insert_observations foiOfSample 3 [apiObsA, apiObsB]
        initRun).features_of_interest).length = 1 := by decide

end Cear
